import Mathlib

/-!
Verification of the Zynox Cloud memory server (`zynox_server1.py`).

The memory endpoints (`/v1/save`, `/v1/list`, `/v1/download`, `/v1/delete`,
`/v1/query`), the emotion heuristic and the key loader are embedded as pure
Lean functions over an explicit database state (the SQLite `memories` table
is a list of rows in insertion order; `fetchone`/`SELECT ... WHERE` become
`List.find?`/`List.filter`).  Nondeterministic inputs of the Python code
(the generated uuid, the current timestamp) are passed as explicit
arguments.  The Fernet cipher comes from the external `cryptography`
library, so it is modelled from the spec (see `encrypt`/`decrypt` below).
-/

namespace Zynox

/-- ASCII lower-casing of one character, as Python's `str.lower` acts on the
ASCII range (every string the server compares against is ASCII). -/
def lowerChar (c : Char) : Char :=
  if 'A' ≤ c ∧ c ≤ 'Z' then Char.ofNat (c.toNat + 32) else c

/-- `s.lower()` on ASCII text. -/
def strLower (s : String) : String := ⟨s.data.map lowerChar⟩

/-- Helper for Python's substring test: does `needle` occur as a contiguous
run inside the second list?  (`"" in s` is `True` in Python, matched by the
empty needle being a prefix of anything.) -/
def hasSub (needle : List Char) : List Char → Bool
  | [] => needle.isEmpty
  | c :: t => needle.isPrefixOf (c :: t) || hasSub needle t

/-- Python's `needle in hay` on strings: substring containment. -/
def strContains (hay needle : String) : Bool := hasSub needle.data hay.data

/-- Modelled from the spec: the Fernet cipher of the external `cryptography`
library is not part of this repository.  The spec's contract: `encrypt`
always succeeds under the process key and produces a self-describing token;
`decrypt` inverts it under the same key and fails (`DecryptionError`) on a
token produced under a different key or malformed.  A ciphertext token is
modelled as the pair of the key it was produced under and the plaintext. -/
def encrypt (k : Nat) (p : String) : Nat × String := (k, p)

/-- Modelled from the spec: Fernet decryption under key `k`; fails
(`none`) exactly on tokens not produced under `k`. -/
def decrypt (k : Nat) (b : Nat × String) : Option String :=
  if b.1 = k then some b.2 else none

/-- The three fixed word lists of `detect_emotion` (source lines 112-117). -/
def sadWords : List String := ["sad", "depressed", "tired", "lonely"]

def happyWords : List String := ["happy", "joy", "excited", "great"]

def angryWords : List String := ["angry", "mad", "furious", "upset"]

/-- `detect_emotion` (source lines 110-118): lower-case the text, then test
the three word lists in order sad, happy, angry; `w in text` is substring
containment. -/
def detect_emotion (text : String) : Option String :=
  let t := strLower text
  if sadWords.any (fun w => strContains t w) then some "sad"
  else if happyWords.any (fun w => strContains t w) then some "happy"
  else if angryWords.any (fun w => strContains t w) then some "angry"
  else none

/-- One row of the `memories` table (schema at source lines 74-85). -/
structure Record where
  id : String
  owner_id : String
  key : String
  tags : List String
  created_at : String
  updated_at : String
  enc_blob : Nat × String
  version : Nat
  deriving DecidableEq, Repr

/-- Body of `POST /v1/save` (source lines 94-98). -/
structure UploadRequest where
  owner_id : String
  key : Option String
  tags : Option (List String)
  data : String
  deriving Repr

structure SaveResponse where
  status : String
  id : String
  tags : List String
  deriving DecidableEq, Repr

/-- The auto-tagging step of `save_memory` (source lines 159-162): append
the detected emotion to the caller tags when not already present. -/
def mergeEmotion (tags0 : List String) (data : String) : List String :=
  match detect_emotion data with
  | some e => if tags0.contains e then tags0 else tags0 ++ [e]
  | none => tags0

/-- `save_memory` (source lines 149-172): encrypt the data, merge the
detected emotion into the caller tags, insert the new row.
`payload.tags or []` maps `None` (and `[]`) to `[]`.  The generated uuid
and timestamp arrive as the `mem_id` and `now` arguments. -/
def save_memory (k : Nat) (db : List Record) (payload : UploadRequest)
    (mem_id now : String) : List Record × SaveResponse :=
  let encrypted := encrypt k payload.data
  let tags0 := match payload.tags with | none => [] | some l => l
  let tags := mergeEmotion tags0 payload.data
  let rec0 : Record :=
    { id := mem_id, owner_id := payload.owner_id,
      key := (match payload.key with | none => "" | some s => s),
      tags := tags, created_at := now, updated_at := now,
      enc_blob := encrypted, version := 1 }
  (db ++ [rec0], { status := "ok", id := mem_id, tags := tags })

/-- One element of the `items` array of `/v1/list` (source lines 183-191). -/
structure ListItem where
  id : String
  key : String
  tags : List String
  created_at : String
  updated_at : String
  version : Nat
  deriving DecidableEq, Repr

structure ListResponse where
  status : String
  items : List ListItem
  deriving DecidableEq, Repr

def mkListItem (r : Record) : ListItem :=
  { id := r.id, key := r.key, tags := r.tags, created_at := r.created_at,
    updated_at := r.updated_at, version := r.version }

/-- `list_memories` (source lines 174-192): all rows of the owner, in table
order, without the ciphertext. -/
def list_memories (db : List Record) (owner_id : String) : ListResponse :=
  { status := "ok",
    items := (db.filter (fun r => r.owner_id = owner_id)).map mkListItem }

/-- Outcome of `GET /v1/download/{mem_id}` (source lines 194-207):
a 200 body, an `HTTPException`, or an unhandled exception (the bare
`fernet.decrypt` at line 206 raising). -/
inductive DownloadResult where
  | ok (data : String)
  | httpError (status : Nat) (detail : String)
  | serverCrash
  deriving DecidableEq, Repr

/-- `download` (source lines 194-207): `fetchone` on the id, 404 when no
row, else decrypt (an unhandled decryption failure crashes the handler). -/
def download (k : Nat) (db : List Record) (mem_id : String) : DownloadResult :=
  match db.find? (fun r => r.id = mem_id) with
  | none => .httpError 404 "Not found"
  | some r =>
    match decrypt k r.enc_blob with
    | some p => .ok p
    | none => .serverCrash

structure DeleteResponse where
  status : String
  deleted : String
  deriving DecidableEq, Repr

/-- `delete` (source lines 209-217): remove every row with the id, answer
`ok` regardless of whether any row matched. -/
def delete (db : List Record) (mem_id : String) :
    List Record × DeleteResponse :=
  (db.filter (fun r => r.id ≠ mem_id),
   { status := "ok", deleted := mem_id })

/-- Body of `POST /v1/query/{owner_id}`: `body.get` yields `None` for a
missing field (source lines 222-223). -/
structure QueryBody where
  emotion : Option String
  keyword : Option String
  deriving Repr

structure QueryResult where
  id : String
  key : String
  tags : List String
  created_at : String
  text : String
  deriving DecidableEq, Repr

structure QueryResponse where
  status : String
  results : List QueryResult
  deriving DecidableEq, Repr

/-- The match test of line 239:
`(emotion and emotion in tags) or (keyword and keyword.lower() in
decrypted.lower())`; a `None` or empty-string filter is falsy. -/
def rowMatches (body : QueryBody) (tags : List String) (d : String) : Bool :=
  (match body.emotion with
   | some e => !(e = "") && tags.contains e
   | none => false) ||
  (match body.keyword with
   | some kw => !(kw = "") && strContains (strLower d) (strLower kw)
   | none => false)

def mkQueryResult (r : Record) (d : String) : QueryResult :=
  { id := r.id, key := r.key, tags := r.tags, created_at := r.created_at,
    text := d }

/-- `query_memories` (source lines 219-248): all rows of the owner; a row
whose blob fails to decrypt is skipped (`except: continue`); the rest are
kept when `rowMatches` holds. -/
def query_memories (k : Nat) (db : List Record) (owner_id : String)
    (body : QueryBody) : QueryResponse :=
  { status := "ok",
    results := (db.filter (fun r => r.owner_id = owner_id)).filterMap
      (fun r =>
        match decrypt k r.enc_blob with
        | none => none
        | some d =>
          if rowMatches body r.tags d then some (mkQueryResult r d)
          else none) }

/-- What `load_key` can observe at process start: the contents of
`secret.key` when the file exists, and any environment-provided secret. -/
structure StartupEnv where
  key_file : Option Nat
  env_secret : Option Nat
  deriving Repr

/-- `load_key` (source lines 41-45): read `secret.key`; raise when the file
does not exist.  The environment secret is never consulted and no key is
generated. -/
def load_key (env : StartupEnv) : Except String Nat :=
  match env.key_file with
  | none => .error "secret.key not found. Run generate_key.py first!"
  | some k => .ok k

/-- Fixture: a record of owner "A" tagged `["angry"]` whose plaintext is
"banana split", encrypted under key 0. -/
def recA : Record :=
  { id := "a", owner_id := "A", key := "", tags := ["angry"],
    created_at := "t", updated_at := "t",
    enc_blob := encrypt 0 "banana split", version := 1 }

/-- Fixture: a record of owner "B", encrypted under key 0. -/
def recB : Record :=
  { id := "b", owner_id := "B", key := "", tags := [],
    created_at := "t", updated_at := "t",
    enc_blob := encrypt 0 "other text", version := 1 }

/-- Fixture: a record of owner "A" encrypted under a different key (1), so
it fails to decrypt under the process key 0. -/
def recBad : Record :=
  { id := "c", owner_id := "A", key := "", tags := ["angry"],
    created_at := "t", updated_at := "t",
    enc_blob := encrypt 1 "hidden", version := 1 }

/-- Fixture: a save payload carrying duplicate caller tags. -/
def dupPayload : UploadRequest :=
  { owner_id := "o", key := none, tags := some ["x", "x"], data := "hi" }

/-- Fixture: the spec's dedup example payload — caller tags `["happy"]`,
text "I am so happy". -/
def happyPayload : UploadRequest :=
  { owner_id := "o", key := none, tags := some ["happy"],
    data := "I am so happy" }

/-- Bridge between Python's list membership test and `List.contains`. -/
theorem contains_iff (l : List String) (e : String) :
    l.contains e = true ↔ e ∈ l :=
  List.elem_iff

/-- C4: `detect_emotion` lower-cases the text and tests the three fixed word
lists in priority order sad, happy, angry, returning the tag of the first
list with a substring match and `none` when none match; in particular
"I am sad but happy" is tagged "sad". -/
theorem detect_emotion_priority (text : String) :
    (sadWords.any (fun w => strContains (strLower text) w) = true →
      detect_emotion text = some "sad") ∧
    (sadWords.any (fun w => strContains (strLower text) w) = false →
      happyWords.any (fun w => strContains (strLower text) w) = true →
      detect_emotion text = some "happy") ∧
    (sadWords.any (fun w => strContains (strLower text) w) = false →
      happyWords.any (fun w => strContains (strLower text) w) = false →
      angryWords.any (fun w => strContains (strLower text) w) = true →
      detect_emotion text = some "angry") ∧
    (sadWords.any (fun w => strContains (strLower text) w) = false →
      happyWords.any (fun w => strContains (strLower text) w) = false →
      angryWords.any (fun w => strContains (strLower text) w) = false →
      detect_emotion text = none) ∧
    detect_emotion "I am sad but happy" = some "sad" := by
  refine ⟨?_, ?_, ?_, ?_, by decide⟩
  · intro h1
    simp [detect_emotion, h1]
  · intro h1 h2
    simp [detect_emotion, h1, h2]
  · intro h1 h2 h3
    simp [detect_emotion, h1, h2, h3]
  · intro h1 h2 h3
    simp [detect_emotion, h1, h2, h3]

/-- Witness for C4 at the spec's tie-break example. -/
theorem detect_emotion_priority_w :
    detect_emotion "I am sad but happy" = some "sad" :=
  (detect_emotion_priority "I am sad but happy").1 (by decide)

/-- C5 counterexample: with no key file present, `load_key` fails even
though an environment-provided secret exists, so key loading does fail
merely because the key file is absent (no environment fallback, no fresh
key generation). -/
theorem load_key_cex :
    load_key { key_file := none, env_secret := some 5 } =
      .error "secret.key not found. Run generate_key.py first!" := rfl

/-- C5 (amended): `load_key` reads only the persisted key file; when the
file is absent it fails with an error telling the operator to run
`generate_key.py` — the environment secret is never consulted and no fresh
key is generated. -/
theorem load_key_spec (env : StartupEnv) :
    (∀ k, env.key_file = some k → load_key env = .ok k) ∧
    (env.key_file = none →
      load_key env =
        .error "secret.key not found. Run generate_key.py first!") ∧
    (∀ s, load_key { key_file := env.key_file, env_secret := s } =
      load_key env) := by
  obtain ⟨kf, es⟩ := env
  cases kf <;> simp [load_key]

/-- Witness for C5's amended theorem. -/
theorem load_key_spec_w :
    load_key { key_file := some 7, env_secret := none } = .ok 7 :=
  (load_key_spec { key_file := some 7, env_secret := none }).1 7 rfl

/-- C3 counterexample: caller-supplied duplicate tags are stored verbatim
(`save_memory` only deduplicates the auto-derived emotion tag), so the
stored tag list can contain duplicates. -/
theorem save_tags_cex :
    (save_memory 0 [] dupPayload "id1" "t0").2.tags = ["x", "x"] ∧
    ¬ (["x", "x"] : List String).Nodup :=
  ⟨by decide, by decide⟩

/-- C3 (amended): deduplication applies only to the auto-derived emotion
tag — it is appended exactly when not already present, after the caller
tags in order; caller-supplied duplicates are stored as-is.  Hence when
the caller tags are duplicate-free the stored tags are duplicate-free and
keep first-insertion order. -/
theorem save_tags_nodup (k : Nat) (db : List Record)
    (payload : UploadRequest) (mem_id now : String)
    (h : (match payload.tags with | none => [] | some l => l).Nodup) :
    ((save_memory k db payload mem_id now).2.tags).Nodup ∧
    (detect_emotion payload.data = none →
      (save_memory k db payload mem_id now).2.tags
        = (match payload.tags with | none => [] | some l => l)) ∧
    (∀ e, detect_emotion payload.data = some e →
      e ∈ (match payload.tags with | none => [] | some l => l) →
      (save_memory k db payload mem_id now).2.tags
        = (match payload.tags with | none => [] | some l => l)) ∧
    (∀ e, detect_emotion payload.data = some e →
      e ∉ (match payload.tags with | none => [] | some l => l) →
      (save_memory k db payload mem_id now).2.tags
        = (match payload.tags with | none => [] | some l => l) ++ [e]) := by
  have htags : (save_memory k db payload mem_id now).2.tags
      = mergeEmotion (match payload.tags with | none => [] | some l => l)
          payload.data := rfl
  rw [htags]
  generalize (match payload.tags with | none => [] | some l => l) = t0 at h ⊢
  refine ⟨?_, ?_, ?_, ?_⟩
  · rcases hdet : detect_emotion payload.data with _ | e
    · rw [mergeEmotion, hdet]
      exact h
    · by_cases hmem : e ∈ t0
      · have hc : t0.contains e = true := (contains_iff t0 e).mpr hmem
        rw [mergeEmotion, hdet]
        simp only [hc, if_true]
        exact h
      · have hc : t0.contains e = false := by
          rcases hcc : t0.contains e
          · rfl
          · exact absurd ((contains_iff t0 e).mp hcc) hmem
        rw [mergeEmotion, hdet]
        simp only [hc, Bool.false_eq_true, if_false]
        rw [List.nodup_append]
        exact ⟨h, List.nodup_singleton e, fun a ha hae =>
          hmem ((List.mem_singleton.mp hae) ▸ ha)⟩
  · intro hdet
    rw [mergeEmotion, hdet]
  · intro e hdet hmem
    have hc : t0.contains e = true := (contains_iff t0 e).mpr hmem
    rw [mergeEmotion, hdet]
    simp only [hc, if_true]
  · intro e hdet hmem
    have hc : t0.contains e = false := by
      rcases hcc : t0.contains e
      · rfl
      · exact absurd ((contains_iff t0 e).mp hcc) hmem
    rw [mergeEmotion, hdet]
    simp only [hc, Bool.false_eq_true, if_false]

/-- Witness for C3's amended theorem at the spec's dedup example: caller
tags `["happy"]`, text "I am so happy" — the detected emotion "happy" is
already present, so the stored tags are exactly `["happy"]`, with no
duplicate. -/
theorem save_tags_nodup_w :
    ((save_memory 0 [] happyPayload "id1" "t0").2.tags).Nodup ∧
    (save_memory 0 [] happyPayload "id1" "t0").2.tags = ["happy"] :=
  ⟨(save_tags_nodup 0 [] happyPayload "id1" "t0" (by decide)).1,
   (save_tags_nodup 0 [] happyPayload "id1" "t0" (by decide)).2.2.1
     "happy" (by decide) (by decide)⟩

/-- C8: `delete` answers `{status:"ok", deleted:id}` whether or not a row
with the id exists, answers the same on a second call, and after either
call `download` of the id is 404 Not found. -/
theorem delete_idempotent (k : Nat) (db : List Record) (mem_id : String) :
    (delete db mem_id).2 = { status := "ok", deleted := mem_id } ∧
    (delete (delete db mem_id).1 mem_id).2
      = { status := "ok", deleted := mem_id } ∧
    download k (delete db mem_id).1 mem_id = .httpError 404 "Not found" ∧
    download k (delete (delete db mem_id).1 mem_id).1 mem_id
      = .httpError 404 "Not found" := by
  have h404 : ∀ l : List Record,
      download k (delete l mem_id).1 mem_id = .httpError 404 "Not found" := by
    intro l
    have hf : (delete l mem_id).1.find? (fun r => r.id = mem_id) = none := by
      rw [List.find?_eq_none]
      intro r hr
      simp only [delete, List.mem_filter] at hr
      simpa using hr.2
    simp [download, hf]
  exact ⟨rfl, rfl, h404 db, h404 (delete db mem_id).1⟩

/-- C10: `delete id` touches at most the rows with that id — every row with
a different id is still present, unchanged in all fields, and the resulting
table is a sublist of the original (nothing is added or reordered). -/
theorem delete_frame (db : List Record) (mem_id : String) :
    (∀ r ∈ db, r.id ≠ mem_id → r ∈ (delete db mem_id).1) ∧
    (delete db mem_id).1.Sublist db := by
  refine ⟨fun r hr hne => ?_, List.filter_sublist db⟩
  simp only [delete, List.mem_filter]
  exact ⟨hr, by simpa using hne⟩

/-- Witness for C10: deleting record "a" keeps record "b" intact. -/
theorem delete_frame_w : recB ∈ (delete [recA, recB] "a").1 :=
  (delete_frame [recA, recB] "a").1 recB (by decide) (by decide)

/-- C9: every item returned by `list_memories` for owner A originates from
a stored record whose `owner_id` is A (so a record created under a
different owner B is never the source of a returned item), and no
operation rewrites a stored record — `save_memory` keeps every existing
row and `delete` only removes rows — so a record's `owner_id` stays as set
at creation. -/
theorem owner_isolation (db : List Record) (A : String) :
    (∀ item ∈ (list_memories db A).items,
      ∃ r ∈ db, r.owner_id = A ∧ mkListItem r = item) ∧
    (∀ (k : Nat) (payload : UploadRequest) (mem_id now : String),
      ∀ r ∈ db, r ∈ (save_memory k db payload mem_id now).1) ∧
    (∀ i : String, ∀ r ∈ (delete db i).1, r ∈ db) := by
  refine ⟨fun item hit => ?_, fun k payload mem_id now r hr => ?_,
    fun i r hr => ?_⟩
  · simp only [list_memories, List.mem_map, List.mem_filter] at hit
    obtain ⟨r, ⟨hr, hA⟩, hmk⟩ := hit
    exact ⟨r, hr, by simpa using hA, hmk⟩
  · simp only [save_memory, List.mem_append]
    exact Or.inl hr
  · exact List.mem_of_mem_filter hr

/-- Witness for C9: the single item listed for owner "A" over a two-owner
table originates from an "A"-owned record. -/
theorem owner_isolation_w :
    ∃ r ∈ [recA, recB], r.owner_id = "A" ∧ mkListItem r = mkListItem recA :=
  (owner_isolation [recA, recB] "A").1 (mkListItem recA) (by decide)

/-- C6: `download` answers 404 `Not found` exactly when no stored record
has the requested id; when the first matching record's blob decrypts to
`d`, it answers ok with `d`. -/
theorem download_spec (k : Nat) (db : List Record) (mem_id : String) :
    (download k db mem_id = .httpError 404 "Not found" ↔
      ∀ r ∈ db, r.id ≠ mem_id) ∧
    (∀ r d, db.find? (fun r => r.id = mem_id) = some r →
      decrypt k r.enc_blob = some d →
      download k db mem_id = .ok d) := by
  constructor
  · rcases hf : db.find? (fun r => r.id = mem_id) with _ | r
    · simp only [download, hf]
      rw [List.find?_eq_none] at hf
      constructor
      · intro _ r hr
        simpa using hf r hr
      · intro _
        trivial
    · simp only [download, hf]
      constructor
      · intro hcontra
        rcases hd : decrypt k r.enc_blob with _ | d <;>
          rw [hd] at hcontra <;> cases hcontra
      · intro hall
        have hmem := List.mem_of_find?_eq_some hf
        have hpred := List.find?_some hf
        exact absurd (of_decide_eq_true hpred) (hall r hmem)
  · intro r d hf hd
    simp only [download, hf, hd]

/-- Witness for C6: downloading the stored record "a" yields its
plaintext. -/
theorem download_spec_w : download 0 [recA] "a" = .ok "banana split" :=
  (download_spec 0 [recA] "a").2 recA "banana split" (by decide) (by decide)

/-- C7: a query always answers status ok, and rows whose blob fails to
decrypt are silently invisible — the response over the full table equals
the response over the table with the undecryptable rows removed, with no
error or partial-failure indication. -/
theorem query_silent_drop (k : Nat) (db : List Record) (owner : String)
    (body : QueryBody) :
    (query_memories k db owner body).status = "ok" ∧
    query_memories k db owner body =
      query_memories k (db.filter (fun r => (decrypt k r.enc_blob).isSome))
        owner body := by
  refine ⟨rfl, ?_⟩
  have key : ∀ l : List Record,
      (l.filter (fun r => r.owner_id = owner)).filterMap
        (fun r => match decrypt k r.enc_blob with
          | none => none
          | some d =>
            if rowMatches body r.tags d then some (mkQueryResult r d)
            else none)
      = ((l.filter (fun r => (decrypt k r.enc_blob).isSome)).filter
          (fun r => r.owner_id = owner)).filterMap
        (fun r => match decrypt k r.enc_blob with
          | none => none
          | some d =>
            if rowMatches body r.tags d then some (mkQueryResult r d)
            else none) := by
    intro l
    induction l with
    | nil => rfl
    | cons r t ih =>
      rcases hd : decrypt k r.enc_blob with _ | d <;>
        by_cases ho : r.owner_id = owner <;>
        simp [List.filter_cons, ho, hd, List.filterMap_cons, ih]
  simp only [query_memories]
  exact congrArg (QueryResponse.mk "ok") (key db)

/-- C2: decryption inverts encryption under the process key, and
downloading a freshly saved record (whose id is new to the table) returns
exactly the saved plaintext. -/
theorem decrypt_encrypt_roundtrip (k : Nat) (db : List Record)
    (payload : UploadRequest) (mem_id now : String)
    (h : ∀ r ∈ db, r.id ≠ mem_id) :
    (∀ p : String, decrypt k (encrypt k p) = some p) ∧
    download k (save_memory k db payload mem_id now).1 mem_id
      = .ok payload.data := by
  constructor
  · intro p
    simp [decrypt, encrypt]
  · have h1 : db.find? (fun r => r.id = mem_id) = none := by
      rw [List.find?_eq_none]
      intro r hr
      simpa using h r hr
    have hsave : (save_memory k db payload mem_id now).1
        = db ++ [⟨mem_id, payload.owner_id,
            (match payload.key with | none => "" | some s => s),
            mergeEmotion (match payload.tags with | none => [] | some l => l)
              payload.data,
            now, now, encrypt k payload.data, 1⟩] := rfl
    simp only [download, hsave, List.find?_append, h1, Option.none_or,
      List.find?_cons]
    simp [decrypt, encrypt]

/-- Witness for C2: saving "I am so happy" and downloading it returns the
same text. -/
theorem decrypt_encrypt_roundtrip_w :
    download 0 (save_memory 0 [] happyPayload "id1" "t0").1 "id1"
      = .ok "I am so happy" :=
  (decrypt_encrypt_roundtrip 0 [] happyPayload "id1" "t0" (by decide)).2

/-- `rowMatches` with both filters present, unfolded. -/
theorem rowMatches_some (e kw : String) (tags : List String) (d : String) :
    rowMatches { emotion := some e, keyword := some kw } tags d
      = ((!(e = "") && tags.contains e) ||
         (!(kw = "") && strContains (strLower d) (strLower kw))) := rfl

/-- `rowMatches` with both filters supplied and non-empty is the logical
OR of tag membership and case-insensitive substring containment. -/
theorem rowMatches_iff (e kw : String) (tags : List String) (d : String)
    (he : e ≠ "") (hkw : kw ≠ "") :
    rowMatches { emotion := some e, keyword := some kw } tags d = true ↔
      (e ∈ tags ∨ strContains (strLower d) (strLower kw) = true) := by
  rw [rowMatches_some]
  simp [he, hkw, contains_iff]

/-- C1: with both filters supplied (non-empty), a decryptable record of
the queried owner is included in the query results exactly when the
emotion is in its tag set OR the keyword is a case-insensitive substring
of its decrypted text — either condition alone suffices. -/
theorem query_or_semantics (k : Nat) (db : List Record) (owner : String)
    (r : Record) (e kw d : String)
    (hr : r ∈ db) (how : r.owner_id = owner)
    (hd : decrypt k r.enc_blob = some d)
    (he : e ≠ "") (hkw : kw ≠ "") :
    mkQueryResult r d ∈
      (query_memories k db owner
        { emotion := some e, keyword := some kw }).results ↔
      (e ∈ r.tags ∨ strContains (strLower d) (strLower kw) = true) := by
  have hresults : (query_memories k db owner
      { emotion := some e, keyword := some kw }).results
      = (db.filter (fun r => r.owner_id = owner)).filterMap
        (fun r => match decrypt k r.enc_blob with
          | none => none
          | some d =>
            if rowMatches { emotion := some e, keyword := some kw } r.tags d
            then some (mkQueryResult r d) else none) := rfl
  rw [hresults]
  constructor
  · intro hmem
    rw [List.mem_filterMap] at hmem
    obtain ⟨r', hr', hf⟩ := hmem
    rcases hd' : decrypt k r'.enc_blob with _ | d'
    · rw [hd'] at hf
      cases hf
    · rw [hd'] at hf
      have hf' : (if rowMatches { emotion := some e, keyword := some kw }
            r'.tags d' = true
          then some (mkQueryResult r' d') else none)
          = some (mkQueryResult r d) := hf
      by_cases hm : rowMatches { emotion := some e, keyword := some kw }
          r'.tags d' = true
      · rw [if_pos hm] at hf'
        have htags : r'.tags = r.tags :=
          congrArg QueryResult.tags (Option.some.inj hf')
        have htext : d' = d :=
          congrArg QueryResult.text (Option.some.inj hf')
        rw [htags, htext] at hm
        exact (rowMatches_iff e kw r.tags d he hkw).mp hm
      · rw [if_neg hm] at hf'
        cases hf'
  · intro hdisj
    rw [List.mem_filterMap]
    refine ⟨r, ?_, ?_⟩
    · rw [List.mem_filter]
      exact ⟨hr, by simpa using how⟩
    · rw [hd]
      show (if rowMatches { emotion := some e, keyword := some kw }
            r.tags d = true
          then some (mkQueryResult r d) else none)
          = some (mkQueryResult r d)
      rw [if_pos ((rowMatches_iff e kw r.tags d he hkw).mpr hdisj)]

/-- Witness for C1 at the spec's example: a record tagged `["angry"]` with
text "banana split" matches `query(emotion="angry", keyword="apple")` —
the emotion alone satisfies the OR. -/
theorem query_or_semantics_w :
    mkQueryResult recA "banana split" ∈
      (query_memories 0 [recA] "A"
        { emotion := some "angry", keyword := some "apple" }).results :=
  (query_or_semantics 0 [recA] "A" recA "angry" "apple" "banana split"
    (by decide) (by decide) (by decide) (by decide) (by decide)).mpr
    (Or.inl (by decide))

end Zynox
